import Mathlib

/-!
Verification of the higher-ranked subtyping / LUB / GLB engine in
`src/librustc/infer/higher_ranked/mod.rs`.

The module's data model (regions, bound regions, binders) is embedded as
inductive types.  The external collaborators listed in the spec (the region
store's taint / "vars created since snapshot" queries, the type-variable
store's escaping-types query, the structural relate capability and the
transaction substrate) are modelled as explicit parameters: a `SnapshotView`
record of query results and an `InferOps` record of state-transforming
operations over an abstract store state `σ`.  The functions of the source
module are then translated over these parameters.
-/

namespace HigherRanked

/-- `ty::BoundRegion`: the identity of a region bound by a binder.
`named` covers the pre-existing identities (`BrNamed`/`BrAnon`);
`fresh` covers identities minted by `region_vars.new_bound` (`BrFresh`). -/
inductive BoundRegion where
  | named (n : Nat)
  | fresh (n : Nat)
deriving DecidableEq

/-- `ty::Region`: free (pre-existing) regions, inference variables (`ReVar`),
late-bound regions with a de Bruijn depth (`ReLateBound`), and skolemized
placeholders (`ReSkolemized`, carrying the id and the bound region it
replaced). -/
inductive Region where
  | free (n : Nat)
  | var (vid : Nat)
  | lateBound (d : Nat) (br : BoundRegion)
  | skolemized (id : Nat) (br : BoundRegion)
deriving DecidableEq

/-- `ty::Region::is_bound`: true exactly for late-bound regions. -/
def Region.isBound : Region → Bool
  | .lateBound _ _ => true
  | _ => false

/-- A small universe of foldable values standing in for the generic
`T : TypeFoldable`: a base type, a type variable, a reference type carrying a
region, and a nested binder (entering it increments the de Bruijn depth of
`fold_regions`, exactly as `ty::Binder` does). -/
inductive Ty where
  | base
  | tyVar (n : Nat)
  | ref (r : Region) (t : Ty)
  | fnBinder (t : Ty)
deriving DecidableEq

/-- The two user-facing error kinds of `TypeError` this module produces, plus
a stand-in for the structural errors the relate capability can return. -/
inductive TypeError where
  | regionsInsufficientlyPolymorphic (br : BoundRegion) (r : Region)
  | regionsOverlyPolymorphic (br : BoundRegion) (r : Region)
  | mismatch
deriving DecidableEq

/-- The answers the external region / type-variable stores give about one
snapshot: `tainted` is `region_vars.tainted(snapshot, -)`, `varsCreatedSince`
is `region_vars.vars_created_since_snapshot`, and `escapingTypes` is
`type_variables.types_escaping_snapshot` (the types that escape the snapshot
through a type variable pre-dating it). -/
structure SnapshotView where
  tainted : Region → List Region
  varsCreatedSince : List Nat
  escapingTypes : List Ty

/-- Modelled from the spec: `collect_regions(type, outSet)` of the external
interface, "gathers all reachable region occurrences". -/
def collect_regions : Ty → List Region
  | .base => []
  | .tyVar _ => []
  | .ref r t => r :: collect_regions t
  | .fnBinder t => collect_regions t

/-- `is_var_in_set`: true iff `r` is an inference variable whose id occurs in
`new_vars`. -/
def is_var_in_set (new_vars : List Nat) : Region → Bool
  | .var vid => new_vars.any (fun x => decide (x = vid))
  | _ => false

/-- `region_vars_confined_to_snapshot`: the region variables created since the
snapshot, minus those that occur in a type escaping the snapshot through a
pre-existing type variable. -/
def region_vars_confined_to_snapshot (v : SnapshotView) : List Nat :=
  let escaping_region_vars :=
    v.escapingTypes.foldr (fun t acc => collect_regions t ++ acc) []
  v.varsCreatedSince.filter
    (fun vid => !(escaping_region_vars.any (fun r => decide (r = Region.var vid))))

/-- The inner loop of `leak_check` over one taint set: returns the first
tainted region that is neither a new-transaction variable nor the skolemized
region itself. -/
def firstOffender (new_vars : List Nat) (skol : Region) : List Region → Option Region
  | [] => none
  | r :: rest =>
    match r with
    | .var vid =>
      if new_vars.any (fun x => decide (x = vid)) then firstOffender new_vars skol rest
      else some (.var vid)
    | rr =>
      if rr = skol then firstOffender new_vars skol rest
      else some rr

/-- The outer loop of `leak_check` over the skolemization map. -/
def leakCheckGo (v : SnapshotView) (new_vars : List Nat) :
    List (BoundRegion × Region) → Except (BoundRegion × Region) Unit
  | [] => .ok ()
  | (skol_br, skol) :: rest =>
    match firstOffender new_vars skol (v.tainted skol) with
    | some r => .error (skol_br, r)
    | none => leakCheckGo v new_vars rest

/-- `leak_check`: searches the constraints recorded since the snapshot for a
skolemized region related to anything other than itself or a variable
confined to the snapshot. -/
def leak_check (v : SnapshotView) (skol_map : List (BoundRegion × Region)) :
    Except (BoundRegion × Region) Unit :=
  leakCheckGo v (region_vars_confined_to_snapshot v) skol_map

/-- Following the spec's words: a region related to a placeholder is
acceptable iff it is the placeholder itself or a variable confined to the
snapshot. -/
def regionOkPerSpec (confined : List Nat) (skol r : Region) : Bool :=
  decide (r = skol) ||
    (match r with
     | .var vid => confined.any (fun x => decide (x = vid))
     | _ => false)

/-- Following the spec's words: succeed iff every region in every taint set is
acceptable; otherwise report the first offending `(boundRegion, region)` pair
in map iteration order. -/
def leakCheckSpec (v : SnapshotView) (m : List (BoundRegion × Region)) :
    Except (BoundRegion × Region) Unit :=
  let confined := region_vars_confined_to_snapshot v
  match m.find? (fun p => (v.tainted p.2).any (fun r => !(regionOkPerSpec confined p.2 r))) with
  | none => .ok ()
  | some p =>
    match (v.tainted p.2).find? (fun r => !(regionOkPerSpec confined p.2 r)) with
    | some r => .error (p.1, r)
    | none => .ok ()

/-- Modelled from the spec: the region-folding core of `tcx.fold_regions`.
The callback receives each region occurrence together with the current binder
depth (starting at 1, incremented under each nested binder); occurrences of
regions bound within the folded value itself (`ReLateBound` with depth below
the current one) are skipped.  The callback may signal a fatal internal error
(`none`), which aborts the whole fold. -/
def foldRegionsAux (f : Region → Nat → Option Region) : Nat → Ty → Option Ty
  | _, .base => some .base
  | _, .tyVar n => some (.tyVar n)
  | d, .ref r t =>
    match
      (match r with
       | .lateBound dr br =>
         if dr < d then some (Region.lateBound dr br) else f (.lateBound dr br) d
       | rr => f rr d) with
    | none => none
    | some r1 =>
      match foldRegionsAux f d t with
      | none => none
      | some t1 => some (.ref r1 t1)
  | d, .fnBinder t =>
    match foldRegionsAux f (d + 1) t with
    | none => none
    | some t1 => some (.fnBinder t1)

/-- Modelled from the spec: `tcx.fold_regions` on a value, starting at binder
depth 1. -/
def fold_regions (t : Ty) (f : Region → Nat → Option Region) : Option Ty :=
  foldRegionsAux f 1 t

/-- `fold_regions_in`: folds the regions of an unbound value, asserting (as a
fatal internal error) that the callback never encounters a late-bound
region. -/
def fold_regions_in (t : Ty) (fldr : Region → Nat → Option Region) : Option Ty :=
  fold_regions t (fun region depth =>
    match region with
    | .lateBound _ _ => none
    | rr => fldr rr depth)

/-- State-threading variant of `foldRegionsAux`, for callbacks that allocate
in the region store (GLB generalization calls `new_bound`). -/
def foldRegionsAuxM {σ : Type} (f : Region → Nat → σ → Option (Region × σ)) :
    Nat → σ → Ty → Option (Ty × σ)
  | _, s, .base => some (.base, s)
  | _, s, .tyVar n => some (.tyVar n, s)
  | d, s, .ref r t =>
    match
      (match r with
       | .lateBound dr br =>
         if dr < d then some (Region.lateBound dr br, s) else f (.lateBound dr br) d s
       | rr => f rr d s) with
    | none => none
    | some (r1, s1) =>
      match foldRegionsAuxM f d s1 t with
      | none => none
      | some (t1, s2) => some (.ref r1 t1, s2)
  | d, s, .fnBinder t =>
    match foldRegionsAuxM f (d + 1) s t with
    | none => none
    | some (t1, s1) => some (.fnBinder t1, s1)

/-- State-threading variant of `fold_regions_in`. -/
def fold_regions_inM {σ : Type} (f : Region → Nat → σ → Option (Region × σ))
    (t : Ty) (s : σ) : Option (Ty × σ) :=
  foldRegionsAuxM (fun region depth st =>
    match region with
    | .lateBound _ _ => none
    | rr => f rr depth st) 1 s t

/-- Association-list lookup in an instantiation map. -/
def lookupBr (m : List (BoundRegion × Region)) (br : BoundRegion) : Option Region :=
  (m.find? (fun p => decide (p.1 = br))).map (fun p => p.2)

/-- Modelled from the spec: the core of `tcx.replace_late_bound_regions`.
Each region bound by the binder being opened (depth equal to the current
one) is replaced by the region the allocator `fresh` yields for its bound
region, memoized in the returned map (one entry per distinct bound region,
in first-occurrence order); the allocator threads the store state `σ`. -/
def replaceLateBoundAuxM {σ : Type} (fresh : BoundRegion → σ → Region × σ) :
    Nat → List (BoundRegion × Region) → σ → Ty →
    (Ty × List (BoundRegion × Region)) × σ
  | _, m, s, .base => ((.base, m), s)
  | _, m, s, .tyVar n => ((.tyVar n, m), s)
  | d, m, s, .ref r t =>
    let step :
        (Region × List (BoundRegion × Region)) × σ :=
      match r with
      | .lateBound dr br =>
        if dr = d then
          match lookupBr m br with
          | some reg => ((reg, m), s)
          | none =>
            let rs := fresh br s
            ((rs.1, m ++ [(br, rs.1)]), rs.2)
        else ((.lateBound dr br, m), s)
      | rr => ((rr, m), s)
    let rest := replaceLateBoundAuxM fresh d step.1.2 step.2 t
    ((.ref step.1.1 rest.1.1, rest.1.2), rest.2)
  | d, m, s, .fnBinder t =>
    let rest := replaceLateBoundAuxM fresh (d + 1) m s t
    ((.fnBinder rest.1.1, rest.1.2), rest.2)

/-- Modelled from the spec: `tcx.replace_late_bound_regions` on a binder's
body, returning the instantiated body and the bound-region map. -/
def replace_late_bound_regionsM {σ : Type} (fresh : BoundRegion → σ → Region × σ)
    (body : Ty) (s : σ) : (Ty × List (BoundRegion × Region)) × σ :=
  replaceLateBoundAuxM fresh 1 [] s body

/-- `skolemize_late_bound_regions`: replace all regions bound by the binder
with skolemized regions allocated by the store's `new_skolemized`, and return
the skolemization map. -/
def skolemize_late_bound_regionsM {σ : Type}
    (newSkolemized : BoundRegion → σ → Region × σ) (body : Ty) (s : σ) :
    (Ty × List (BoundRegion × Region)) × σ :=
  replace_late_bound_regionsM newSkolemized body s

/-- `skolemize_late_bound_regions` with the store state specialized to a
fresh-id counter: the k-th opened bound region becomes the skolemized region
with the next id. -/
def skolemize_late_bound_regions (body : Ty) (start : Nat) :
    (Ty × List (BoundRegion × Region)) × Nat :=
  skolemize_late_bound_regionsM (fun br n => (.skolemized n br, n + 1)) body start

/-- Modelled from the spec: `replace_late_bound_regions_with_fresh_var` with
the store state specialized to a fresh-id counter: every opened bound region
becomes a fresh inference variable. -/
def replace_late_bound_regions_with_fresh_var (body : Ty) (start : Nat) :
    (Ty × List (BoundRegion × Region)) × Nat :=
  replace_late_bound_regionsM (fun _ n => (Region.var n, n + 1)) body start

/-- `var_ids`: extract the inference-variable ids of an instantiation map's
values; any non-variable value is a fatal internal error (`span_bug`),
modelled as `none`. -/
def var_ids : List (BoundRegion × Region) → Option (List Nat)
  | [] => some []
  | p :: rest =>
    match p.2 with
    | .var vid =>
      match var_ids rest with
      | some l => some (vid :: l)
      | none => none
    | _ => none

/-- LUB `generalize_region`: a region that is not a new variable, or that is
tainted by a non-new region, stays as it is (asserting it is not bound);
otherwise it is replaced by the first bound region of `a`'s map whose
instantiated variable occurs in its taint set, and it is a fatal internal
error (`span_bug`) when there is none. -/
def lub_generalize_region (v : SnapshotView) (debruijn : Nat)
    (new_vars : List Nat) (a_map : List (BoundRegion × Region)) (r0 : Region) :
    Option Region :=
  if !(is_var_in_set new_vars r0) then
    if r0.isBound then none else some r0
  else
    let tainted := v.tainted r0
    if !(tainted.all (fun r => is_var_in_set new_vars r)) then
      if r0.isBound then none else some r0
    else
      match a_map.find? (fun p => tainted.any (fun x => decide (x = p.2))) with
      | some p => some (.lateBound debruijn p.1)
      | none => none

/-- Following the spec's words for LUB generalization: leave `r0` unchanged
when it is not a new variable or is tainted by a non-new region; otherwise
rebind it, at the given depth, to the first bound-region key of `a`'s map
whose instantiated variable occurs in `taint(r0)`, a fatal internal error
when no key matches. -/
def lubGeneralizeSpec (v : SnapshotView) (debruijn : Nat)
    (new_vars : List Nat) (a_map : List (BoundRegion × Region)) (r0 : Region) :
    Option Region :=
  if !(is_var_in_set new_vars r0) ||
     !((v.tainted r0).all (fun r => is_var_in_set new_vars r)) then
    some r0
  else
    match a_map.find? (fun p => (v.tainted r0).any (fun x => decide (x = p.2))) with
    | some p => some (.lateBound debruijn p.1)
    | none => none

/-- GLB `rev_lookup`: find the bound region of `a`'s map instantiated to `r`
and rebind at de Bruijn depth 1 (the depth is hard-coded in the source);
absence is a fatal internal error (`span_bug`). -/
def rev_lookup (a_map : List (BoundRegion × Region)) (r : Region) : Option Region :=
  match a_map.find? (fun p => decide (p.2 = r)) with
  | some p => some (.lateBound 1 p.1)
  | none => none

/-- The loop of GLB `generalize_region` over the taint set, accumulating the
unique a-side and b-side representatives and the only-new-variables flag, and
allocating a fresh bound region (`new_bound`) as soon as a second
representative of either side appears. -/
def glbLoop {σ : Type} (newBound : Nat → σ → Region × σ) (debruijn : Nat)
    (a_map : List (BoundRegion × Region)) (a_vars b_vars new_vars : List Nat)
    (r0 : Region) (s : σ) :
    List Region → Option Region → Option Region → Bool → Option (Region × σ)
  | [], a_r, b_r, only_new =>
    if a_r.isSome && b_r.isSome && only_new then
      match a_r with
      | some ar => (rev_lookup a_map ar).map (fun rr => (rr, s))
      | none => none
    else if a_r.isNone && b_r.isNone then
      if r0.isBound then none else some (r0, s)
    else
      some (newBound debruijn s)
  | r :: rest, a_r, b_r, only_new =>
    if is_var_in_set a_vars r then
      if a_r.isSome then some (newBound debruijn s)
      else glbLoop newBound debruijn a_map a_vars b_vars new_vars r0 s rest (some r) b_r only_new
    else if is_var_in_set b_vars r then
      if b_r.isSome then some (newBound debruijn s)
      else glbLoop newBound debruijn a_map a_vars b_vars new_vars r0 s rest a_r (some r) only_new
    else if !(is_var_in_set new_vars r) then
      glbLoop newBound debruijn a_map a_vars b_vars new_vars r0 s rest a_r b_r false
    else
      glbLoop newBound debruijn a_map a_vars b_vars new_vars r0 s rest a_r b_r only_new

/-- GLB `generalize_region`: a region that is not a new variable stays as it
is (asserting it is not bound); otherwise its taint set is partitioned by the
loop above and the outcome decided from the representatives found. -/
def glb_generalize_region {σ : Type} (newBound : Nat → σ → Region × σ)
    (v : SnapshotView) (debruijn : Nat) (new_vars : List Nat)
    (a_map : List (BoundRegion × Region)) (a_vars b_vars : List Nat)
    (r0 : Region) (s : σ) : Option (Region × σ) :=
  if !(is_var_in_set new_vars r0) then
    if r0.isBound then none else some (r0, s)
  else
    glbLoop newBound debruijn a_map a_vars b_vars new_vars r0 s
      (v.tainted r0) none none true

/-- Following the spec's words for GLB generalization of a new-variable
region: with exactly one a-side and one b-side representative in the taint
set and everything in it a recognized variable, rebind via reverse lookup of
the a-side representative in `a`'s map; with no representative on either
side, leave the region unchanged; in every other shape allocate a fresh bound
placeholder at the current depth. -/
def glbGeneralizeSpec {σ : Type} (newBound : Nat → σ → Region × σ)
    (v : SnapshotView) (debruijn : Nat) (new_vars : List Nat)
    (a_map : List (BoundRegion × Region)) (a_vars b_vars : List Nat)
    (r0 : Region) (s : σ) : Option (Region × σ) :=
  let t := v.tainted r0
  if t.countP (fun r => is_var_in_set a_vars r) = 1 ∧
     t.countP (fun r => is_var_in_set b_vars r) = 1 ∧
     t.all (fun r =>
       is_var_in_set a_vars r || is_var_in_set b_vars r || is_var_in_set new_vars r) = true then
    match t.find? (fun r => is_var_in_set a_vars r) with
    | some ar => (rev_lookup a_map ar).map (fun rr => (rr, s))
    | none => none
  else if t.countP (fun r => is_var_in_set a_vars r) = 0 ∧
          t.countP (fun r => is_var_in_set b_vars r) = 0 then
    some (r0, s)
  else
    some (newBound debruijn s)

/-- A counter-state instance of the store's `new_bound`: allocates
`ReLateBound(debruijn, BrFresh(n))` and bumps the counter. -/
def newBoundCounter (debruijn : Nat) (n : Nat) : Region × Nat :=
  (.lateBound debruijn (.fresh n), n + 1)

/-- `plug_leaks`: build the inverse of the skolemization map through the
taint sets, resolve instantiated type variables in the value, then rewrite
every region occurrence that the inverse map covers into a late-bound region
one binder out (fatal internal error — the `assert!(current_depth > 1)` —
when there is no enclosing binder); every other occurrence stays.  (The
source's `debug_assert!` that the leak check passed is a debug-only check; it
appears here as the precondition of the theorems about this function.  The
source collects the inverse pairs into a hash map; under that precondition
the taint sets are disjoint, so first-match lookup on the flattened pair list
agrees with it.) -/
def plug_leaks (v : SnapshotView) (resolve : Ty → Ty)
    (skol_map : List (BoundRegion × Region)) (value : Ty) : Option Ty :=
  let inv_skol_map : List (Region × BoundRegion) :=
    skol_map.foldr
      (fun p acc => (v.tainted p.2).map (fun tainted_region => (tainted_region, p.1)) ++ acc)
      []
  let value1 := resolve value
  fold_regions value1 (fun r current_depth =>
    match inv_skol_map.find? (fun q => decide (q.1 = r)) with
    | none => some r
    | some q =>
      if current_depth > 1 then some (.lateBound (current_depth - 1) q.2)
      else none)

/-- Following the spec's words for leak plugging: resolve type variables
first, then rewrite exactly the occurrences lying in the taint set of some
placeholder to a bound region at (current depth − 1) carrying that
placeholder's original bound-region identity, fatally erroring with no
enclosing binder, and leave every other occurrence unchanged. -/
def plugLeaksSpec (v : SnapshotView) (resolve : Ty → Ty)
    (skol_map : List (BoundRegion × Region)) (value : Ty) : Option Ty :=
  fold_regions (resolve value) (fun r current_depth =>
    match skol_map.find? (fun p => (v.tainted p.2).any (fun x => decide (x = r))) with
    | none => some r
    | some p =>
      if current_depth > 1 then some (.lateBound (current_depth - 1) p.1)
      else none)

/-- Modelled from the spec: the transaction substrate's `commit_if_ok` —
run `f` on the current store state (which is also the snapshot token),
keep its final state on success, roll every mutation back (restore the
initial state) iff it errs. -/
def commit_if_ok {σ E R : Type} (s : σ) (f : σ → σ → Except E (R × σ)) :
    Except E R × σ :=
  match f s s with
  | .ok (r, s1) => (.ok r, s1)
  | .error e => (.error e, s)

/-- Modelled from the spec: `commit_if_ok` for bodies that can also abort the
compilation with a fatal internal error (`none`). -/
def commit_if_ok_opt {σ E R : Type} (s : σ) (f : σ → σ → Option (Except E (R × σ))) :
    Option (Except E R × σ) :=
  match f s s with
  | none => none
  | some (.ok (r, s1)) => some (.ok r, s1)
  | some (.error e) => some (.error e, s)

/-- The external capabilities `higher_ranked_sub`/`lub`/`glb` consume,
over an abstract store state `σ`: fresh-variable and skolemized-region
allocation, the structural relate capability in its three modes, type
variable resolution, `new_bound`, and the snapshot-scoped queries
(`view snapshot current` yields the store's answers about the span between
the two states). -/
structure InferOps (σ : Type) where
  freshVar : BoundRegion → σ → Region × σ
  newSkolemized : BoundRegion → σ → Region × σ
  subRelate : Ty → Ty → σ → Except TypeError (Ty × σ)
  lubRelate : Ty → Ty → σ → Except TypeError (Ty × σ)
  glbRelate : Ty → Ty → σ → Except TypeError (Ty × σ)
  resolve : σ → Ty → Ty
  newBound : Nat → σ → Region × σ
  view : σ → σ → SnapshotView

/-- `higher_ranked_sub`: inside one `commit_if_ok` transaction, instantiate
`a`'s bound regions with fresh variables and `b`'s with skolemized regions,
structurally sub-relate the opened bodies, then leak-check `b`'s
skolemization map; a leak becomes `RegionsInsufficientlyPolymorphic` when `a`
is the expected side and `RegionsOverlyPolymorphic` otherwise, and success
rewraps the related body in a binder. -/
def higher_ranked_sub {σ : Type} (ops : InferOps σ) (a_is_expected : Bool)
    (a b : Ty) (s : σ) : Except TypeError Ty × σ :=
  commit_if_ok s (fun snapshot s0 =>
    let astep := replace_late_bound_regionsM ops.freshVar a s0
    let a_prime := astep.1.1
    let bstep := skolemize_late_bound_regionsM ops.newSkolemized b astep.2
    let b_prime := bstep.1.1
    let skol_map := bstep.1.2
    match ops.subRelate a_prime b_prime bstep.2 with
    | .error e => .error e
    | .ok (result, s3) =>
      match leak_check (ops.view snapshot s3) skol_map with
      | .ok _ => .ok (.fnBinder result, s3)
      | .error (skol_br, tainted_region) =>
        .error
          (if a_is_expected then
            .regionsInsufficientlyPolymorphic skol_br tainted_region
           else
            .regionsOverlyPolymorphic skol_br tainted_region))

/-- `higher_ranked_lub`: inside one `commit_if_ok` transaction, instantiate
both operands with fresh variables, LUB-relate, resolve, and generalize the
regions of the raw result with the LUB rule before rewrapping in a binder;
a `span_bug` in generalization aborts (`none`). -/
def higher_ranked_lub {σ : Type} (ops : InferOps σ) (a b : Ty) (s : σ) :
    Option (Except TypeError Ty × σ) :=
  commit_if_ok_opt s (fun snapshot s0 =>
    let astep := replace_late_bound_regionsM ops.freshVar a s0
    let a_with_fresh := astep.1.1
    let a_map := astep.1.2
    let bstep := replace_late_bound_regionsM ops.freshVar b astep.2
    let b_with_fresh := bstep.1.1
    match ops.lubRelate a_with_fresh b_with_fresh bstep.2 with
    | .error e => some (.error e)
    | .ok (result0, s3) =>
      let result0r := ops.resolve s3 result0
      let v := ops.view snapshot s3
      let new_vars := region_vars_confined_to_snapshot v
      match fold_regions_in result0r (fun r debruijn =>
          lub_generalize_region v debruijn new_vars a_map r) with
      | none => none
      | some result1 => some (.ok (.fnBinder result1, s3)))

/-- `higher_ranked_glb`: inside one `commit_if_ok` transaction, instantiate
both operands with fresh variables, extract both instantiation maps'
variable ids (`var_ids`, a fatal internal error on a non-variable value),
GLB-relate, resolve, and generalize the regions of the raw result with the
GLB rule (threading the store state, since the conservative branch allocates
fresh bound regions) before rewrapping in a binder. -/
def higher_ranked_glb {σ : Type} (ops : InferOps σ) (a b : Ty) (s : σ) :
    Option (Except TypeError Ty × σ) :=
  commit_if_ok_opt s (fun snapshot s0 =>
    let astep := replace_late_bound_regionsM ops.freshVar a s0
    let a_with_fresh := astep.1.1
    let a_map := astep.1.2
    let bstep := replace_late_bound_regionsM ops.freshVar b astep.2
    let b_with_fresh := bstep.1.1
    let b_map := bstep.1.2
    match var_ids a_map, var_ids b_map with
    | some a_vars, some b_vars =>
      match ops.glbRelate a_with_fresh b_with_fresh bstep.2 with
      | .error e => some (.error e)
      | .ok (result0, s3) =>
        let result0r := ops.resolve s3 result0
        let v := ops.view snapshot s3
        let new_vars := region_vars_confined_to_snapshot v
        match fold_regions_inM (fun r debruijn st =>
            glb_generalize_region ops.newBound v debruijn new_vars a_map
              a_vars b_vars r st) result0r s3 with
        | none => none
        | some (result1, s4) => some (.ok (.fnBinder result1, s4))
    | _, _ => none)

/-! Concrete store instances used to evaluate the theorems below on closed
inputs. -/

/-- A snapshot with no recorded constraints: every region's taint set is just
itself, and nothing was created or escaped. -/
def vId : SnapshotView :=
  { tainted := fun r => [r], varsCreatedSince := [], escapingTypes := [] }

/-- A one-entry skolemization map. -/
def mW2 : List (BoundRegion × Region) := [(.named 0, .skolemized 0 (.named 0))]

/-- A binder body with one bound region occurrence. -/
def tyW : Ty := .ref (.lateBound 1 (.named 0)) .base

/-- A value containing a skolemized region under one binder. -/
def valueW6 : Ty := .fnBinder (.ref (.skolemized 0 (.named 0)) .base)

/-- A snapshot in which the GLB result variable `'0` is tainted by the a-side
instantiation variable `'1` and the b-side instantiation variable `'2`, all
three created inside the transaction. -/
def vGlb : SnapshotView :=
  { tainted := fun r => if r = Region.var 0 then [.var 0, .var 1, .var 2] else [r]
    varsCreatedSince := [0, 1, 2]
    escapingTypes := [] }

/-- The a-side instantiation map of that GLB: bound region `'5` became the
variable `'1`. -/
def aMapGlb : List (BoundRegion × Region) := [(.named 5, .var 1)]

/-- The a-side instantiation variables of that GLB. -/
def aVarsGlb : List Nat := [1]

/-- The b-side instantiation variables of that GLB. -/
def bVarsGlb : List Nat := [2]

/-- A raw GLB result in which the region to generalize sits under a nested
binder, so the fold reaches it at de Bruijn depth 2. -/
def valueGlb : Ty := .fnBinder (.ref (.var 0) .base)

/-- A counter-state `InferOps` whose structural relate succeeds with the left
operand and whose snapshot view taints every region with the pre-existing
free region `'7` — so every skolemized region leaks. -/
def opsW : InferOps Nat :=
  { freshVar := fun _ n => (.var n, n + 1)
    newSkolemized := fun br n => (.skolemized n br, n + 1)
    subRelate := fun t1 _ s => .ok (t1, s)
    lubRelate := fun t1 _ s => .ok (t1, s)
    glbRelate := fun t1 _ s => .ok (t1, s)
    resolve := fun _ t => t
    newBound := newBoundCounter
    view := fun _ _ =>
      { tainted := fun _ => [.free 7], varsCreatedSince := [], escapingTypes := [] } }

/-- A counter-state `InferOps` whose structural relate always fails. -/
def opsE : InferOps Nat :=
  { freshVar := fun _ n => (.var n, n + 1)
    newSkolemized := fun br n => (.skolemized n br, n + 1)
    subRelate := fun _ _ _ => .error .mismatch
    lubRelate := fun _ _ _ => .error .mismatch
    glbRelate := fun _ _ _ => .error .mismatch
    resolve := fun _ t => t
    newBound := newBoundCounter
    view := fun _ _ => vId }

/-! Helper lemmas. -/

theorem is_var_in_set_var (l : List Nat) (vid : Nat) :
    is_var_in_set l (Region.var vid) = true ↔ vid ∈ l := by
  simp [is_var_in_set, List.any_eq_true]

theorem mem_escaping_foldr (ts : List Ty) (r : Region) :
    r ∈ ts.foldr (fun t acc => collect_regions t ++ acc) [] ↔
      ∃ t ∈ ts, r ∈ collect_regions t := by
  induction ts with
  | nil => simp
  | cons t ts ih => simp [List.mem_append, ih]

/-- C8: `region_vars_confined_to_snapshot` keeps exactly the region variables
created since the snapshot that occur in no type escaping the snapshot
through a pre-existing type variable. -/
theorem confined_vars_iff (v : SnapshotView) (vid : Nat) :
    vid ∈ region_vars_confined_to_snapshot v ↔
      vid ∈ v.varsCreatedSince ∧
        ¬ ∃ t ∈ v.escapingTypes, Region.var vid ∈ collect_regions t := by
  unfold region_vars_confined_to_snapshot
  rw [List.mem_filter]
  constructor
  · rintro ⟨hmem, hflt⟩
    refine ⟨hmem, fun hex => ?_⟩
    rw [← mem_escaping_foldr] at hex
    simp only [Bool.not_eq_true', List.any_eq_false, decide_eq_true_eq] at hflt
    exact hflt _ hex rfl
  · rintro ⟨hmem, hnex⟩
    refine ⟨hmem, ?_⟩
    simp only [Bool.not_eq_true', List.any_eq_false, decide_eq_true_eq]
    intro x hx hxeq
    subst hxeq
    exact hnex ((mem_escaping_foldr _ _).mp hx)

/-- C3: for a non-bound region of the raw LUB result (the fold feeding this
function aborts on bound regions before it is called), the translated LUB
`generalize_region` computes exactly the spec's description: regions that are
not new variables or are tainted by a non-new region stay; a purely internal
region is rebound at the given depth to the first matching bound region of
`a`'s map, and it is a fatal internal error when none matches. -/
theorem lub_generalize_matches_spec (v : SnapshotView) (debruijn : Nat)
    (new_vars : List Nat) (a_map : List (BoundRegion × Region)) (r0 : Region)
    (hb : r0.isBound = false) :
    lub_generalize_region v debruijn new_vars a_map r0 =
      lubGeneralizeSpec v debruijn new_vars a_map r0 := by
  unfold lub_generalize_region lubGeneralizeSpec
  cases h1 : is_var_in_set new_vars r0 <;>
    cases h2 : (v.tainted r0).all (fun r => is_var_in_set new_vars r) <;>
      simp [h1, h2, hb]

/-- Witness for C3 at a pre-existing free region. -/
theorem lub_generalize_matches_spec_witness :
    Region.isBound (.free 3) = false ∧
      lub_generalize_region vId 1 [] [] (.free 3) =
        lubGeneralizeSpec vId 1 [] [] (.free 3) :=
  ⟨rfl, lub_generalize_matches_spec vId 1 [] [] (.free 3) rfl⟩

theorem replaceAux_values {σ : Type} (P : Region → Prop)
    (fresh : BoundRegion → σ → Region × σ)
    (hf : ∀ br s, P (fresh br s).1) (t : Ty) :
    ∀ (d : Nat) (m : List (BoundRegion × Region)) (s : σ),
      (∀ p ∈ m, P p.2) →
      ∀ p ∈ (replaceLateBoundAuxM fresh d m s t).1.2, P p.2 := by
  induction t with
  | base => intro d m s hm p hp; exact hm p hp
  | tyVar n => intro d m s hm p hp; exact hm p hp
  | fnBinder t ih => intro d m s hm p hp; exact ih (d + 1) m s hm p hp
  | ref r t ih =>
    intro d m s hm
    cases r with
    | free n => exact ih d m s hm
    | var vid => exact ih d m s hm
    | skolemized i br => exact ih d m s hm
    | lateBound dr br =>
      by_cases hd : dr = d
      · cases hl : lookupBr m br with
        | some reg =>
          simp only [replaceLateBoundAuxM, hd, if_pos, hl]
          exact ih d m s hm
        | none =>
          simp only [replaceLateBoundAuxM, hd, if_pos, hl]
          refine ih d _ _ ?_
          intro p hp
          rcases List.mem_append.mp hp with hp1 | hp2
          · exact hm p hp1
          · rcases List.mem_singleton.mp hp2 with rfl
            exact hf br s
      · simp only [replaceLateBoundAuxM, hd, if_neg, if_false]
        exact ih d m s hm

theorem skolemize_map_values (body : Ty) (start : Nat) :
    ∀ p ∈ (skolemize_late_bound_regions body start).1.2,
      ∃ i br, p.2 = Region.skolemized i br :=
  replaceAux_values (fun r => ∃ i br, r = Region.skolemized i br) _
    (fun br s => ⟨s, br, rfl⟩) body 1 [] start (by simp)

theorem freshvar_map_values (body : Ty) (start : Nat) :
    ∀ p ∈ (replace_late_bound_regions_with_fresh_var body start).1.2,
      ∃ vid, p.2 = Region.var vid :=
  replaceAux_values (fun r => ∃ vid, r = Region.var vid) _
    (fun _ s => ⟨s, rfl⟩) body 1 [] start (by simp)

theorem leakCheckGo_id_ok (v : SnapshotView) (nv : List Nat)
    (hid : ∀ r, v.tainted r = [r]) :
    ∀ m : List (BoundRegion × Region),
      (∀ p ∈ m, ∃ i br, p.2 = Region.skolemized i br) →
      leakCheckGo v nv m = .ok () := by
  intro m
  induction m with
  | nil => intro _; rfl
  | cons p m ih =>
    intro hm
    obtain ⟨pbr, pr⟩ := p
    obtain ⟨i, br, hp⟩ := hm (pbr, pr) (List.mem_cons_self _ _)
    simp only at hp
    subst hp
    have hfo : firstOffender nv (Region.skolemized i br)
        (v.tainted (Region.skolemized i br)) = none := by
      rw [hid]
      simp [firstOffender]
    simp only [leakCheckGo, hfo]
    exact ih (fun q hq => hm q (List.mem_cons_of_mem _ hq))

/-- C9: skolemizing a binder and immediately leak-checking the resulting
skolemization map against an unmodified snapshot — every taint set is still a
singleton — always succeeds. -/
theorem skolemize_then_leak_check_ok (v : SnapshotView) (body : Ty) (start : Nat)
    (hid : ∀ r, v.tainted r = [r]) :
    leak_check v (skolemize_late_bound_regions body start).1.2 = .ok () :=
  leakCheckGo_id_ok v (region_vars_confined_to_snapshot v) hid
    (skolemize_late_bound_regions body start).1.2 (skolemize_map_values body start)

/-- Witness for C9: a binder with one bound-region occurrence, a pristine
snapshot. -/
theorem skolemize_then_leak_check_ok_witness :
    (∀ r, vId.tainted r = [r]) ∧
      leak_check vId (skolemize_late_bound_regions tyW 0).1.2 = .ok () :=
  ⟨fun _ => rfl, skolemize_then_leak_check_ok vId tyW 0 (fun _ => rfl)⟩

theorem var_ids_of_all_var :
    ∀ m : List (BoundRegion × Region),
      (∀ p ∈ m, ∃ vid, p.2 = Region.var vid) →
      ∃ l : List Nat, var_ids m = some l ∧
        m.map (fun p => p.2) = l.map Region.var := by
  intro m
  induction m with
  | nil => intro _; exact ⟨[], rfl, rfl⟩
  | cons p m ih =>
    intro hm
    obtain ⟨vid, hp⟩ := hm p (List.mem_cons_self _ _)
    obtain ⟨l, h1, h2⟩ := ih (fun q hq => hm q (List.mem_cons_of_mem _ hq))
    refine ⟨vid :: l, ?_, ?_⟩
    · simp [var_ids, hp, h1]
    · simp [hp, h2]

/-- C10: `var_ids` is a fatal internal error (`span_bug`) on any map value
that is not an inference variable, and on every map produced by
fresh-variable instantiation it succeeds and returns exactly the
instantiated variable ids. -/
theorem var_ids_spec :
    (∀ (m : List (BoundRegion × Region)) (p : BoundRegion × Region),
        p ∈ m → (∀ vid, p.2 ≠ Region.var vid) → var_ids m = none) ∧
    (∀ (body : Ty) (start : Nat), ∃ l : List Nat,
        var_ids (replace_late_bound_regions_with_fresh_var body start).1.2 = some l ∧
        (replace_late_bound_regions_with_fresh_var body start).1.2.map (fun p => p.2) =
          l.map Region.var) := by
  constructor
  · intro m
    induction m with
    | nil => intro p hp; exact absurd hp (List.not_mem_nil p)
    | cons q m ih =>
      intro p hp hnv
      rcases List.mem_cons.mp hp with rfl | hp2
      · cases hq : p.2 with
        | var vid => exact absurd hq (hnv vid)
        | free n => simp [var_ids, hq]
        | lateBound d br => simp [var_ids, hq]
        | skolemized i br => simp [var_ids, hq]
      · cases hq : q.2 with
        | var vid => simp [var_ids, hq, ih p hp2 hnv]
        | free n => simp [var_ids, hq]
        | lateBound d br => simp [var_ids, hq]
        | skolemized i br => simp [var_ids, hq]
  · intro body start
    exact var_ids_of_all_var _ (freshvar_map_values body start)

/-- Witness for C10: a map with a free-region value aborts; the map obtained
by opening `tyW` with fresh variables extracts to its variable ids. -/
theorem var_ids_spec_witness :
    var_ids [(BoundRegion.named 0, Region.free 0)] = none ∧
      ∃ l : List Nat,
        var_ids (replace_late_bound_regions_with_fresh_var tyW 0).1.2 = some l ∧
        (replace_late_bound_regions_with_fresh_var tyW 0).1.2.map (fun p => p.2) =
          l.map Region.var :=
  ⟨var_ids_spec.1 _ _ (List.mem_singleton.mpr rfl)
      (fun _ h => Region.noConfusion h),
    var_ids_spec.2 tyW 0⟩

/-- C5: `rev_lookup` hard-codes de Bruijn depth 1 instead of using the fold's
current depth.  On a raw GLB result whose generalized region occurrence sits
under a nested binder (fold depth 2), the GLB generalization fold rebinds it
as `ReLateBound(1, '5)` — captured by the inner binder — while the LUB
generalization fold at the very same configuration rebinds the occurrence at
the current depth, `ReLateBound(2, '5)`. -/
theorem glb_rev_lookup_depth_one_bug :
    fold_regions_inM (fun r debruijn st =>
        glb_generalize_region newBoundCounter vGlb debruijn
          (region_vars_confined_to_snapshot vGlb) aMapGlb aVarsGlb bVarsGlb r st)
      valueGlb 0 =
      some (.fnBinder (.ref (.lateBound 1 (.named 5)) .base), 0) ∧
    fold_regions_in valueGlb (fun r debruijn =>
        lub_generalize_region vGlb debruijn
          (region_vars_confined_to_snapshot vGlb) aMapGlb r) =
      some (.fnBinder (.ref (.lateBound 2 (.named 5)) .base)) := by
  constructor <;> rfl

theorem commit_if_ok_rollback {σ E R : Type} (s : σ)
    (f : σ → σ → Except E (R × σ)) (e : E)
    (he : (commit_if_ok s f).1 = .error e) : (commit_if_ok s f).2 = s := by
  unfold commit_if_ok at he ⊢
  cases hf : f s s with
  | ok p => rw [hf] at he; exact absurd he (by simp)
  | error e1 => rfl

theorem commit_if_ok_opt_rollback {σ E R : Type} (s : σ)
    (f : σ → σ → Option (Except E (R × σ))) (e : E) (s1 : σ)
    (he : commit_if_ok_opt s f = some (.error e, s1)) : s1 = s := by
  unfold commit_if_ok_opt at he
  cases hf : f s s with
  | none => rw [hf] at he; exact absurd he (by simp)
  | some x =>
    rw [hf] at he
    cases x with
    | ok p => exact absurd he (by simp)
    | error e1 =>
      simp only [Option.some.injEq, Prod.mk.injEq] at he
      exact he.2.symm

/-- C7: each of `higher_ranked_sub`, `higher_ranked_lub` and
`higher_ranked_glb` runs entirely inside one `commit_if_ok` transaction, so
an error return leaves the stores exactly as before the call. -/
theorem higher_ranked_atomic_on_error {σ : Type} (ops : InferOps σ)
    (a_is_expected : Bool) (a b : Ty) (s : σ) :
    (∀ e : TypeError, (higher_ranked_sub ops a_is_expected a b s).1 = .error e →
        (higher_ranked_sub ops a_is_expected a b s).2 = s) ∧
    (∀ (e : TypeError) (s1 : σ),
        higher_ranked_lub ops a b s = some (.error e, s1) → s1 = s) ∧
    (∀ (e : TypeError) (s1 : σ),
        higher_ranked_glb ops a b s = some (.error e, s1) → s1 = s) :=
  ⟨fun e he => commit_if_ok_rollback s _ e he,
    fun e s1 he => commit_if_ok_opt_rollback s _ e s1 he,
    fun e s1 he => commit_if_ok_opt_rollback s _ e s1 he⟩

/-- Witness for C7: with a structural relate that always fails, all three
operations return an error and the rolled-back state equals the initial
state `5`. -/
theorem higher_ranked_atomic_on_error_witness :
    (higher_ranked_sub opsE true Ty.base Ty.base 5).2 = 5 ∧
      (5 : Nat) = 5 ∧ (5 : Nat) = 5 :=
  ⟨(higher_ranked_atomic_on_error opsE true Ty.base Ty.base 5).1 .mismatch rfl,
    (higher_ranked_atomic_on_error opsE true Ty.base Ty.base 5).2.1 .mismatch 5 rfl,
    (higher_ranked_atomic_on_error opsE true Ty.base Ty.base 5).2.2 .mismatch 5 rfl⟩

/-- C1: when the structural sub-relate succeeds and the leak check then fails
with the pair `(br, tr)`, `higher_ranked_sub` returns
`RegionsInsufficientlyPolymorphic(br, tr)` if `a` is the expected side and
`RegionsOverlyPolymorphic(br, tr)` otherwise (and never succeeds), rolling
the store back. -/
theorem higher_ranked_sub_leak_error {σ : Type} (ops : InferOps σ)
    (a_is_expected : Bool) (a b : Ty) (s : σ)
    (ap : Ty) (amap : List (BoundRegion × Region)) (s1 : σ)
    (bp : Ty) (smap : List (BoundRegion × Region)) (s2 : σ)
    (res : Ty) (s3 : σ) (br : BoundRegion) (tr : Region)
    (h1 : replace_late_bound_regionsM ops.freshVar a s = ((ap, amap), s1))
    (h2 : skolemize_late_bound_regionsM ops.newSkolemized b s1 = ((bp, smap), s2))
    (h3 : ops.subRelate ap bp s2 = .ok (res, s3))
    (h4 : leak_check (ops.view s s3) smap = .error (br, tr)) :
    higher_ranked_sub ops a_is_expected a b s =
      (.error
        (if a_is_expected then
          .regionsInsufficientlyPolymorphic br tr
         else
          .regionsOverlyPolymorphic br tr), s) := by
  unfold higher_ranked_sub commit_if_ok
  simp [h1, h2, h3, h4]

/-- Witness for C1: a non-polymorphic subtype side against a binder with one
bound region, under a view where every taint set contains the external free
region `'7`; the leak check fails and the expected-side error is returned. -/
theorem higher_ranked_sub_leak_error_witness :
    higher_ranked_sub opsW true Ty.base tyW 0 =
      (.error (.regionsInsufficientlyPolymorphic (.named 0) (.free 7)), 0) := by
  have h := higher_ranked_sub_leak_error opsW true Ty.base tyW 0
    Ty.base [] 0 (.ref (.skolemized 0 (.named 0)) .base)
    [(.named 0, .skolemized 0 (.named 0))] 1
    Ty.base 1 (.named 0) (.free 7) rfl rfl rfl rfl
  simpa using h

theorem firstOffender_eq_find (nv : List Nat) (skol : Region)
    (hsk : ∀ x : Nat, skol ≠ Region.var x) (l : List Region) :
    firstOffender nv skol l =
      l.find? (fun r => !(regionOkPerSpec nv skol r)) := by
  induction l with
  | nil => rfl
  | cons r rest ih =>
    cases r with
    | var vid =>
      have hd : decide (Region.var vid = skol) = false :=
        decide_eq_false (fun h => hsk vid h.symm)
      cases hmem : nv.any (fun x => decide (x = vid)) <;>
        simp [firstOffender, List.find?_cons, regionOkPerSpec, hd, hmem, ih]
    | free n =>
      by_cases hr : Region.free n = skol <;>
        simp [firstOffender, List.find?_cons, regionOkPerSpec, hr, ih]
    | lateBound d br =>
      by_cases hr : Region.lateBound d br = skol <;>
        simp [firstOffender, List.find?_cons, regionOkPerSpec, hr, ih]
    | skolemized i br =>
      by_cases hr : Region.skolemized i br = skol <;>
        simp [firstOffender, List.find?_cons, regionOkPerSpec, hr, ih]

/-- C2: on a skolemization map (every value a skolemized placeholder),
`leak_check` succeeds iff every region in every placeholder's taint set is
the placeholder itself or a variable confined to the snapshot, and otherwise
returns the first offending `(boundRegion, region)` pair in map iteration
order — it equals the function written from the spec's words. -/
theorem leak_check_matches_spec (v : SnapshotView)
    (m : List (BoundRegion × Region))
    (hm : ∀ p ∈ m, ∃ i br, p.2 = Region.skolemized i br) :
    leak_check v m = leakCheckSpec v m := by
  unfold leak_check leakCheckSpec
  induction m with
  | nil => rfl
  | cons p m ih =>
    have hsk : ∀ x : Nat, p.2 ≠ Region.var x := by
      obtain ⟨i, br, hp⟩ := hm p (List.mem_cons_self _ _)
      intro x h
      rw [hp] at h
      exact Region.noConfusion h
    have hfo := firstOffender_eq_find (region_vars_confined_to_snapshot v) p.2 hsk
      (v.tainted p.2)
    cases hfind : (v.tainted p.2).find?
        (fun r => !(regionOkPerSpec (region_vars_confined_to_snapshot v) p.2 r)) with
    | some r =>
      have hpa : (!(regionOkPerSpec (region_vars_confined_to_snapshot v) p.2 r)) = true := by
        have h1 := List.find?_some hfind
        exact h1
      have hany : (v.tainted p.2).any
          (fun r => !(regionOkPerSpec (region_vars_confined_to_snapshot v) p.2 r)) = true :=
        List.any_eq_true.mpr
          ⟨r, List.mem_of_find?_eq_some hfind, hpa⟩
      obtain ⟨pbr, pr⟩ := p
      simp only [leakCheckGo, hfo, hfind]
      simp only [List.find?, hany, hfind]
    | none =>
      have hany : (v.tainted p.2).any
          (fun r => !(regionOkPerSpec (region_vars_confined_to_snapshot v) p.2 r)) = false := by
        rw [List.any_eq_false]
        intro x hx
        have := List.find?_eq_none.mp hfind x hx
        simpa using this
      obtain ⟨pbr, pr⟩ := p
      simp only [leakCheckGo, hfo, hfind]
      simp only [List.find?, hany]
      exact ih (fun q hq => hm q (List.mem_cons_of_mem _ hq))

/-- Witness for C2: a one-placeholder skolemization map under a pristine
snapshot. -/
theorem leak_check_matches_spec_witness :
    (∀ p ∈ mW2, ∃ i br, p.2 = Region.skolemized i br) ∧
      leak_check vId mW2 = leakCheckSpec vId mW2 := by
  have hm : ∀ p ∈ mW2, ∃ i br, p.2 = Region.skolemized i br := by
    intro p hp
    rw [mW2, List.mem_singleton] at hp
    subst hp
    exact ⟨0, .named 0, rfl⟩
  exact ⟨hm, leak_check_matches_spec vId mW2 hm⟩

theorem findq_append {α : Type} (p : α → Bool) (l1 l2 : List α) :
    (l1 ++ l2).find? p =
      (match l1.find? p with
       | some a => some a
       | none => l2.find? p) := by
  induction l1 with
  | nil => rfl
  | cons a l1 ih =>
    cases hp : p a <;> simp [List.find?, List.cons_append, hp, ih]

theorem mapFst_find (l : List Region) (br : BoundRegion) (r : Region) :
    (l.map (fun tr => (tr, br))).find? (fun q => decide (q.1 = r)) =
      (if l.any (fun x => decide (x = r)) then some (r, br) else none) := by
  induction l with
  | nil => rfl
  | cons x l ih =>
    by_cases hx : x = r
    · subst hx
      simp [List.find?, List.any_cons]
    · simp [List.find?, List.any_cons, hx, ih]

theorem invFlat_find (v : SnapshotView) (r : Region)
    (m : List (BoundRegion × Region)) :
    (m.foldr (fun p acc =>
        (v.tainted p.2).map (fun tainted_region => (tainted_region, p.1)) ++ acc) []).find?
        (fun q => decide (q.1 = r)) =
      (m.find? (fun p => (v.tainted p.2).any (fun x => decide (x = r)))).map
        (fun p => (r, p.1)) := by
  induction m with
  | nil => rfl
  | cons p m ih =>
    rw [List.foldr_cons, findq_append, mapFst_find]
    cases hany : (v.tainted p.2).any (fun x => decide (x = r)) <;>
      simp [List.find?, hany, ih]

theorem foldRegionsAux_congr (f g : Region → Nat → Option Region)
    (h : ∀ r d, f r d = g r d) (t : Ty) :
    ∀ d : Nat, foldRegionsAux f d t = foldRegionsAux g d t := by
  induction t with
  | base => intro d; rfl
  | tyVar n => intro d; rfl
  | ref r t ih =>
    intro d
    cases r <;> simp [foldRegionsAux, h, ih d]
  | fnBinder t ih =>
    intro d
    simp [foldRegionsAux, ih (d + 1)]

/-- C6: under the leak-check-passed precondition, `plug_leaks` equals the
function written from the spec's words — resolve type variables first, then
rewrite exactly the occurrences lying in some placeholder's taint set to a
bound region one binder out carrying that placeholder's original identity
(fatal internal error with no enclosing binder), leaving every other
occurrence unchanged. -/
theorem plug_leaks_matches_spec (v : SnapshotView) (resolve : Ty → Ty)
    (m : List (BoundRegion × Region)) (value : Ty)
    (_hlc : leak_check v m = .ok ()) :
    plug_leaks v resolve m value = plugLeaksSpec v resolve m value := by
  unfold plug_leaks plugLeaksSpec fold_regions
  refine foldRegionsAux_congr _ _ (fun r d => ?_) (resolve value) 1
  rw [invFlat_find]
  cases hfind : m.find? (fun p => (v.tainted p.2).any (fun x => decide (x = r))) <;>
    simp

/-- Witness for C6: one placeholder, a pristine snapshot (so the leak check
passes) and a value holding that placeholder under a binder. -/
theorem plug_leaks_matches_spec_witness :
    leak_check vId mW2 = .ok () ∧
      plug_leaks vId (fun t => t) mW2 valueW6 =
        plugLeaksSpec vId (fun t => t) mW2 valueW6 :=
  ⟨rfl, plug_leaks_matches_spec vId (fun t => t) mW2 valueW6 rfl⟩

theorem is_var_in_set_isBound (l : List Nat) (r : Region)
    (h : is_var_in_set l r = true) : r.isBound = false := by
  cases r <;> simp_all [is_var_in_set, Region.isBound]

theorem disj_not_b (a_vars b_vars : List Nat)
    (hdisj : ∀ x, x ∈ a_vars → x ∈ b_vars → False) (r : Region)
    (h : is_var_in_set a_vars r = true) : is_var_in_set b_vars r = false := by
  cases r with
  | var vid =>
    cases hb : is_var_in_set b_vars (Region.var vid) with
    | false => rfl
    | true =>
      exact absurd ((is_var_in_set_var _ _).mp hb)
        (fun hm => hdisj vid ((is_var_in_set_var _ _).mp h) hm)
  | free n => rfl
  | lateBound d br => rfl
  | skolemized i br => rfl

theorem glbLoop_spec {σ : Type} (newBound : Nat → σ → Region × σ)
    (debruijn : Nat) (a_map : List (BoundRegion × Region))
    (a_vars b_vars new_vars : List Nat) (r0 : Region) (s : σ)
    (hdisj : ∀ x, x ∈ a_vars → x ∈ b_vars → False)
    (hb : r0.isBound = false) :
    ∀ (t : List Region) (a_r b_r : Option Region) (onv : Bool),
      glbLoop newBound debruijn a_map a_vars b_vars new_vars r0 s t a_r b_r onv =
        if t.countP (fun r => is_var_in_set a_vars r) +
             (match a_r with | some _ => 1 | none => 0) = 1 ∧
           t.countP (fun r => is_var_in_set b_vars r) +
             (match b_r with | some _ => 1 | none => 0) = 1 ∧
           onv = true ∧
           t.all (fun r => is_var_in_set a_vars r || is_var_in_set b_vars r ||
             is_var_in_set new_vars r) = true then
          match (match a_r with
                 | some x => some x
                 | none => t.find? (fun r => is_var_in_set a_vars r)) with
          | some ar => (rev_lookup a_map ar).map (fun rr => (rr, s))
          | none => none
        else if t.countP (fun r => is_var_in_set a_vars r) +
                  (match a_r with | some _ => 1 | none => 0) = 0 ∧
                t.countP (fun r => is_var_in_set b_vars r) +
                  (match b_r with | some _ => 1 | none => 0) = 0 then
          some (r0, s)
        else some (newBound debruijn s) := by
  intro t
  induction t with
  | nil =>
    intro a_r b_r onv
    cases a_r <;> cases b_r <;> cases onv <;> simp [glbLoop, hb]
  | cons r rest ih =>
    intro a_r b_r onv
    cases hA : is_var_in_set a_vars r with
    | true =>
      have hB : is_var_in_set b_vars r = false := disj_not_b a_vars b_vars hdisj r hA
      cases a_r with
      | some y =>
        have hL : glbLoop newBound debruijn a_map a_vars b_vars new_vars r0 s
            (r :: rest) (some y) b_r onv = some (newBound debruijn s) := by
          simp [glbLoop, hA]
        rw [hL]
        split_ifs with h1 h2
        · exfalso
          rcases h1 with ⟨h1a, -⟩
          simp only [List.countP_cons, hA, if_pos] at h1a
          omega
        · exfalso
          rcases h2 with ⟨h2a, -⟩
          simp only [List.countP_cons, hA, if_pos] at h2a
          omega
        · rfl
      | none =>
        have hL : glbLoop newBound debruijn a_map a_vars b_vars new_vars r0 s
            (r :: rest) none b_r onv =
            glbLoop newBound debruijn a_map a_vars b_vars new_vars r0 s
              rest (some r) b_r onv := by
          simp [glbLoop, hA]
        rw [hL, ih (some r) b_r onv]
        simp [List.countP_cons, List.all_cons, List.find?, hA, hB, Nat.add_comm]
    | false =>
      cases hB : is_var_in_set b_vars r with
      | true =>
        cases b_r with
        | some y =>
          have hL : glbLoop newBound debruijn a_map a_vars b_vars new_vars r0 s
              (r :: rest) a_r (some y) onv = some (newBound debruijn s) := by
            simp [glbLoop, hA, hB]
          rw [hL]
          split_ifs with h1 h2
          · exfalso
            rcases h1 with ⟨-, h1b, -⟩
            simp only [List.countP_cons, hB, if_pos] at h1b
            omega
          · exfalso
            rcases h2 with ⟨-, h2b⟩
            simp only [List.countP_cons, hB, if_pos] at h2b
            omega
          · rfl
        | none =>
          have hL : glbLoop newBound debruijn a_map a_vars b_vars new_vars r0 s
              (r :: rest) a_r none onv =
              glbLoop newBound debruijn a_map a_vars b_vars new_vars r0 s
                rest a_r (some r) onv := by
            simp [glbLoop, hA, hB]
          rw [hL, ih a_r (some r) onv]
          simp [List.countP_cons, List.all_cons, List.find?, hA, hB, Nat.add_comm]
      | false =>
        cases hN : is_var_in_set new_vars r with
        | true =>
          have hL : glbLoop newBound debruijn a_map a_vars b_vars new_vars r0 s
              (r :: rest) a_r b_r onv =
              glbLoop newBound debruijn a_map a_vars b_vars new_vars r0 s
                rest a_r b_r onv := by
            simp [glbLoop, hA, hB, hN]
          rw [hL, ih a_r b_r onv]
          simp [List.countP_cons, List.all_cons, List.find?, hA, hB, hN]
        | false =>
          have hL : glbLoop newBound debruijn a_map a_vars b_vars new_vars r0 s
              (r :: rest) a_r b_r onv =
              glbLoop newBound debruijn a_map a_vars b_vars new_vars r0 s
                rest a_r b_r false := by
            simp [glbLoop, hA, hB, hN]
          rw [hL, ih a_r b_r false]
          simp [List.countP_cons, List.all_cons, hA, hB, hN]

/-- C4: for a new-variable region of the raw GLB result, over disjoint a-side
and b-side instantiation variable sets, the translated GLB
`generalize_region` computes exactly the spec's three-way outcome: reverse
lookup with exactly one representative per side and only recognized
variables in the taint set, unchanged with no representative on either side,
and a fresh bound placeholder in every other shape. -/
theorem glb_generalize_matches_spec {σ : Type} (newBound : Nat → σ → Region × σ)
    (v : SnapshotView) (debruijn : Nat) (new_vars : List Nat)
    (a_map : List (BoundRegion × Region)) (a_vars b_vars : List Nat)
    (r0 : Region) (s : σ)
    (h1 : is_var_in_set new_vars r0 = true)
    (hdisj : ∀ x, x ∈ a_vars → x ∈ b_vars → False) :
    glb_generalize_region newBound v debruijn new_vars a_map a_vars b_vars r0 s =
      glbGeneralizeSpec newBound v debruijn new_vars a_map a_vars b_vars r0 s := by
  have hb : r0.isBound = false := is_var_in_set_isBound new_vars r0 h1
  unfold glb_generalize_region glbGeneralizeSpec
  rw [glbLoop_spec newBound debruijn a_map a_vars b_vars new_vars r0 s hdisj hb
    (v.tainted r0) none none true]
  simp [h1]

/-- Witness for C4: the taint set of `'0` holds one a-side variable, one
b-side variable and itself, all new; both the code and the spec mirror
rebind through `rev_lookup`. -/
theorem glb_generalize_matches_spec_witness :
    is_var_in_set (region_vars_confined_to_snapshot vGlb) (.var 0) = true ∧
      glb_generalize_region newBoundCounter vGlb 1
          (region_vars_confined_to_snapshot vGlb) aMapGlb aVarsGlb bVarsGlb
          (.var 0) 0 =
        glbGeneralizeSpec newBoundCounter vGlb 1
          (region_vars_confined_to_snapshot vGlb) aMapGlb aVarsGlb bVarsGlb
          (.var 0) 0 := by
  refine ⟨by decide, ?_⟩
  exact glb_generalize_matches_spec newBoundCounter vGlb 1
    (region_vars_confined_to_snapshot vGlb) aMapGlb aVarsGlb bVarsGlb
    (.var 0) 0 (by decide)
    (by intro x hx hy; rw [aVarsGlb, List.mem_singleton] at hx
        rw [bVarsGlb, List.mem_singleton] at hy; omega)

end HigherRanked
